import Mathlib

/-!
Verification of the snapshot cache and refresh pipeline of the LeadingStock
server.  The embedding below follows the Python sources:

* src/server/cache.py           -- the global cache dict and its lock
* src/server/cache_worker.py    -- cache_loop: fetch, per-stock details, publish, backoff
* src/server/main.py            -- REST handlers, websocket Hub, refresh_loop / do_refresh
* src/server/data_sources/naver_finance.py -- build_snapshot, fetch_stock_detail

Lock-guarded blocks of the Python code are modelled as atomic functions on the
cache state; the refresh worker is a step function driven by the outcome of each
cycle; the websocket hub is a fold over the membership snapshot that the Python
code takes under its lock before sending.
-/

/-- Status flag of the global cache (src/server/cache.py line 11:
warming_up | ready | error). -/
inductive Status
  | warming_up
  | ready
  | error
deriving DecidableEq, Repr

/-- One entry of the snapshot stock list (the per-stock dict built in
build_snapshot, naver_finance.py lines 625-641).  The numeric and descriptive
payload fields (market, price, change, change_pct, volume, trade_value, link,
score, signals, ai_opinion) are omitted: no claim reads them; code is the key
used by the detail loop and the /stock endpoint. -/
structure Stock where
  code : String
  name : String
deriving DecidableEq, Repr

/-- Per-stock detail record (the StockDetail dataclass, naver_finance.py line
40).  Its payload fields (price, pivot levels, news, financials, investor
trends, ...) are omitted likewise: the claims only distinguish records and
compare presence/absence. -/
structure StockDetail where
  code : String
  name : String
deriving DecidableEq, Repr

/-- Aggregate snapshot: the dict returned by build_snapshot (naver_finance.py
lines 619-643).  The indices and themes lists are omitted (no claim reads
them); stocks and the source tag are kept. -/
structure Snapshot where
  stocks : List Stock
  source : String
deriving DecidableEq, Repr

/-- Payload data of a websocket frame built by refresh_loop (main.py lines
267-275 and 287-293): either the snapshot dict or the error object
x7b"error": str(e)x7d built on exception. -/
inductive PayloadData
  | snap (s : Snapshot)
  | errorData (e : String)
deriving DecidableEq, Repr

/-- A websocket frame as built by do_refresh / refresh_loop (main.py lines
269-275 and 287-293): type, seq, ts, owner, data. -/
structure Payload where
  type : String
  seq : Nat
  ts : Nat
  owner : String
  data : PayloadData
deriving DecidableEq, Repr

/-- OWNER_NAME default (main.py line 24). -/
def OWNER_NAME : String := "김성훈"

/-- The global cache GLOBAL_CACHE (src/server/cache.py lines 7-12).  The
detail dict is modelled as a lookup function from stock code to an optional
record; timestamps are naturals. -/
structure Cache where
  snapshot : Option Snapshot
  detail : String → Option StockDetail
  updated_at : Option Nat
  status : Status

/-- Initial value of GLOBAL_CACHE at process start (cache.py lines 7-12):
snapshot None, empty detail dict, updated_at None, status warming_up. -/
def initCache : Cache :=
  { snapshot := none
  , detail := fun _ => none
  , updated_at := none
  , status := Status.warming_up }

/-- The atomic swap block of cache_loop (cache_worker.py lines 49-53): under
CACHE_LOCK the snapshot, detail map, updated_at and status are replaced
together in one critical section. -/
def publish (c : Cache) (snap : Snapshot) (det : String → Option StockDetail)
    (now : Nat) : Cache :=
  { c with
    snapshot := some snap
  , detail := det
  , updated_at := some now
  , status := Status.ready }

/-- The error block of cache_loop (cache_worker.py lines 63-64): under
CACHE_LOCK only the status field is assigned. -/
def markError (c : Cache) : Cache :=
  { c with status := Status.error }

/-- Result of one call of fetch_stock_detail as seen by the loop body of
cache_loop (cache_worker.py lines 36-46): the call returns an optional
record (fetch_stock_detail returns None on any internal error,
naver_finance.py lines 1757-1759), or raises an httpx error which the loop
catches and turns into a skip. -/
inductive FetchOutcome
  | res (d : Option StockDetail)
  | raised
deriving DecidableEq

/-- Python dict assignment new_detail[code] = detail (cache_worker.py
line 39): later assignments overwrite earlier ones. -/
def dictInsert (m : String → Option StockDetail) (k : String) (v : StockDetail) :
    String → Option StockDetail :=
  fun c => if c = k then some v else m c

/-- One iteration of the per-stock detail loop of cache_loop (cache_worker.py
lines 31-46): a falsy code is skipped; a truthy fetched detail is stored; a
None result is dropped; a raised httpx error is caught and the stock skipped. -/
def detailStep (fetch : String → FetchOutcome)
    (m : String → Option StockDetail) (stock : Stock) :
    String → Option StockDetail :=
  if stock.code = "" then m
  else
    match fetch stock.code with
    | FetchOutcome.res (some d) => dictInsert m stock.code d
    | FetchOutcome.res none => m
    | FetchOutcome.raised => m

/-- The whole detail loop of cache_loop (cache_worker.py lines 30-46): start
from the empty dict new_detail and run detailStep over the stocks of the new
snapshot in order. -/
def buildDetailMap (stocks : List Stock) (fetch : String → FetchOutcome) :
    String → Option StockDetail :=
  stocks.foldl (detailStep fetch) (fun _ => none)

/-- CACHE_INTERVAL default (cache_worker.py line 12). -/
def CACHE_INTERVAL : Nat := 60

/-- MAX_BACKOFF (cache_worker.py line 13). -/
def MAX_BACKOFF : Nat := 300

/-- State carried by cache_loop across iterations: the global cache it
mutates and the local backoff variable (cache_worker.py line 16). -/
structure WorkerState where
  cache : Cache
  backoff : Nat

/-- Outcome of the fetch phase of one cache_loop iteration: either
build_snapshot succeeded (with the per-stock fetch results and the current
time), or the try body raised and control went to the except branch
(cache_worker.py lines 59-67). -/
inductive CycleOutcome
  | success (snap : Snapshot) (fetch : String → FetchOutcome) (now : Nat)
  | failure

/-- Observable effect of one cache_loop iteration: the updated worker state,
the duration passed to asyncio.sleep, and the frames handed to the websocket
hub during the iteration (cache_loop makes no call into the hub, so this list
is empty in both branches -- broadcasting happens only in refresh_loop in
main.py). -/
structure CycleEffect where
  state : WorkerState
  sleep : Nat
  sent : List Payload

/-- One iteration of cache_loop (cache_worker.py lines 18-67).  On success the
new snapshot/detail pair is published atomically, backoff resets to 1 and the
loop sleeps CACHE_INTERVAL (lines 49-57); on failure the status flips to
error, the loop sleeps the current backoff and doubles it up to MAX_BACKOFF
(lines 59-67). -/
def cacheCycle (st : WorkerState) (out : CycleOutcome) : CycleEffect :=
  match out with
  | CycleOutcome.success snap fetch now =>
      { state :=
          { cache := publish st.cache snap (buildDetailMap snap.stocks fetch) now
          , backoff := 1 }
      , sleep := CACHE_INTERVAL
      , sent := [] }
  | CycleOutcome.failure =>
      { state :=
          { cache := markError st.cache
          , backoff := min (st.backoff * 2) MAX_BACKOFF }
      , sleep := st.backoff
      , sent := [] }

/-- Worker state at process start: GLOBAL_CACHE fresh from cache.py and
backoff = 1 (cache_worker.py line 16). -/
def initWorker : WorkerState :=
  { cache := initCache, backoff := 1 }

/-- Run cache_loop through a list of cycle outcomes. -/
def runWorkerFrom (st : WorkerState) : List CycleOutcome → WorkerState
  | [] => st
  | out :: rest => runWorkerFrom (cacheCycle st out).state rest

/-- The sleep durations produced by a run of n consecutive failed cycles
starting in state st (cache_worker.py lines 66-67: sleep the current backoff,
then double it up to MAX_BACKOFF). -/
def failureDelays (st : WorkerState) : Nat → List Nat
  | 0 => []
  | n + 1 =>
      (cacheCycle st CycleOutcome.failure).sleep ::
        failureDelays (cacheCycle st CycleOutcome.failure).state n

-- Helper lemmas about the worker step.

lemma cacheCycle_status_ne_warming (st : WorkerState) (out : CycleOutcome) :
    (cacheCycle st out).state.cache.status ≠ Status.warming_up := by
  cases out <;> simp [cacheCycle, publish, markError]

lemma cacheCycle_snapshot_persists (st : WorkerState) (out : CycleOutcome)
    (h : st.cache.snapshot ≠ none) :
    (cacheCycle st out).state.cache.snapshot ≠ none := by
  cases out <;> simp [cacheCycle, publish, markError]
  exact h

lemma runWorkerFrom_warming_imp (tr : List CycleOutcome) :
    ∀ st : WorkerState,
      (st.cache.status = Status.warming_up → st.cache.snapshot = none) →
      ((runWorkerFrom st tr).cache.status = Status.warming_up →
        (runWorkerFrom st tr).cache.snapshot = none) := by
  induction tr with
  | nil => intro st h; exact h
  | cons out rest ih =>
      intro st _
      exact ih (cacheCycle st out).state
        (fun hw => absurd hw (cacheCycle_status_ne_warming st out))

lemma runWorkerFrom_snapshot_persists (tr : List CycleOutcome) :
    ∀ st : WorkerState, st.cache.snapshot ≠ none →
      (runWorkerFrom st tr).cache.snapshot ≠ none := by
  induction tr with
  | nil => intro st h; exact h
  | cons out rest ih =>
      intro st h
      exact ih (cacheCycle st out).state (cacheCycle_snapshot_persists st out h)

/-- C4: at process start the cache is warming_up with no snapshot; whenever the
cache is still warming_up no snapshot is present; every successful cycle leaves
status ready with the new snapshot and timestamp published; and once a snapshot
is present it can never become absent again, whatever later cycles do. -/
theorem c4_warmup_invariant :
    (initCache.status = Status.warming_up ∧ initCache.snapshot = none)
    ∧ (∀ tr : List CycleOutcome,
        (runWorkerFrom initWorker tr).cache.status = Status.warming_up →
        (runWorkerFrom initWorker tr).cache.snapshot = none)
    ∧ (∀ (st : WorkerState) (snap : Snapshot) (fetch : String → FetchOutcome)
        (now : Nat),
        (cacheCycle st (CycleOutcome.success snap fetch now)).state.cache.status
            = Status.ready
        ∧ (cacheCycle st (CycleOutcome.success snap fetch now)).state.cache.snapshot
            = some snap
        ∧ (cacheCycle st (CycleOutcome.success snap fetch now)).state.cache.updated_at
            = some now)
    ∧ (∀ (st : WorkerState) (tr : List CycleOutcome),
        st.cache.snapshot ≠ none → (runWorkerFrom st tr).cache.snapshot ≠ none) := by
  refine ⟨⟨rfl, rfl⟩, ?_, ?_, ?_⟩
  · intro tr
    exact runWorkerFrom_warming_imp tr initWorker (fun _ => rfl)
  · intro st snap fetch now
    exact ⟨rfl, rfl, rfl⟩
  · intro st tr h
    exact runWorkerFrom_snapshot_persists tr st h

/-- A concrete snapshot used by witnesses and counterexamples. -/
def snapA : Snapshot :=
  { stocks := [{ code := "005930", name := "SamsungElectronics" }]
  , source := "naver_finance" }

/-- A second, different concrete snapshot. -/
def snapB : Snapshot :=
  { stocks := [], source := "naver_finance" }

/-- A concrete detail record for stock 005930. -/
def detRecA : StockDetail := { code := "005930", name := "SamsungElectronics" }

/-- Witness for C4 at concrete inputs: the initial trace really is warming up
with no snapshot, and a state that has published snapA keeps a snapshot
through a failed cycle. -/
theorem c4_warmup_invariant_witness :
    (runWorkerFrom initWorker []).cache.snapshot = none
    ∧ (runWorkerFrom
        { cache := publish initCache snapA (fun _ => none) 5, backoff := 1 }
        [CycleOutcome.failure]).cache.snapshot ≠ none := by
  constructor
  · exact c4_warmup_invariant.2.1 [] rfl
  · exact c4_warmup_invariant.2.2.2
      { cache := publish initCache snapA (fun _ => none) 5, backoff := 1 }
      [CycleOutcome.failure] (by simp [publish, initCache])

-- Backoff arithmetic for C5.

lemma min_double_pow (j : Nat) :
    min (min (2 ^ j) 300 * 2) 300 = min (2 ^ (j + 1)) 300 := by
  rcases le_total (2 ^ j) 300 with h | h
  · rw [min_eq_left h, pow_succ]
  · have h1 : (300 : Nat) ≤ 2 ^ (j + 1) := by
      calc (300 : Nat) ≤ 2 ^ j := h
        _ ≤ 2 ^ (j + 1) := Nat.pow_le_pow_right (by norm_num) (by omega)
    rw [min_eq_right h, min_eq_right (by omega), min_eq_right h1]

lemma failureDelays_pow (n : Nat) :
    ∀ (j : Nat) (c : Cache),
      failureDelays { cache := c, backoff := min (2 ^ j) 300 } n
        = (List.range n).map (fun k => min (2 ^ (j + k)) 300) := by
  induction n with
  | zero => intro j c; rfl
  | succ n ih =>
      intro j c
      have hstep :
          failureDelays { cache := c, backoff := min (2 ^ j) 300 } (n + 1)
            = min (2 ^ j) 300 ::
                failureDelays
                  { cache := markError c, backoff := min (2 ^ (j + 1)) 300 } n := by
        simp [failureDelays, cacheCycle, MAX_BACKOFF, min_double_pow j]
      rw [hstep, ih (j + 1) (markError c), List.range_succ_eq_map]
      simp only [List.map_cons, List.map_map]
      congr 1
      apply List.map_congr_left
      intro k _
      simp only [Function.comp]
      congr 2
      omega

/-- C5: starting at the backoff floor, n consecutive failed cycles sleep
1, 2, 4, ... capped at 300 (the k-th failure sleeps min (2^k) 300, the backoff
persisting across failures); every successful cycle resets the backoff to 1,
so the first failure after any success sleeps 1 again. -/
theorem c5_backoff_monotone_reset :
    (∀ (c : Cache) (n : Nat),
      failureDelays { cache := c, backoff := 1 } n
        = (List.range n).map (fun k => min (2 ^ k) 300))
    ∧ (∀ (st : WorkerState) (snap : Snapshot) (fetch : String → FetchOutcome)
        (now : Nat),
        (cacheCycle st (CycleOutcome.success snap fetch now)).state.backoff = 1)
    ∧ (∀ (st : WorkerState) (snap : Snapshot) (fetch : String → FetchOutcome)
        (now : Nat),
        (cacheCycle
          (cacheCycle st (CycleOutcome.success snap fetch now)).state
          CycleOutcome.failure).sleep = 1) := by
  refine ⟨?_, ?_, ?_⟩
  · intro c n
    have h1 : (1 : Nat) = min (2 ^ 0) 300 := by norm_num
    rw [h1, failureDelays_pow n 0 c]
    apply List.map_congr_left
    intro k _
    congr 2
    omega
  · intro st snap fetch now; rfl
  · intro st snap fetch now; rfl

/-- C6: a failed cycle only flips the status to error; the snapshot, the
detail map and the updated_at timestamp all keep the values they had before
the cycle, and the cycle hands nothing to the hub. -/
theorem c6_error_frame (st : WorkerState) :
    (cacheCycle st CycleOutcome.failure).state.cache.status = Status.error
    ∧ (cacheCycle st CycleOutcome.failure).state.cache.snapshot
        = st.cache.snapshot
    ∧ (cacheCycle st CycleOutcome.failure).state.cache.detail
        = st.cache.detail
    ∧ (cacheCycle st CycleOutcome.failure).state.cache.updated_at
        = st.cache.updated_at
    ∧ (cacheCycle st CycleOutcome.failure).sent = [] := by
  exact ⟨rfl, rfl, rfl, rfl, rfl⟩

-- Characterisation of the detail loop, for C7 and C9.

/-- The stored value that fetch_stock_detail would contribute for code c:
some d when the fetch returned a truthy record, none when it returned None
or raised (cache_worker.py lines 37-39). -/
def fetchedValue (fetch : String → FetchOutcome) (c : String) :
    Option StockDetail :=
  match fetch c with
  | FetchOutcome.res (some d) => some d
  | FetchOutcome.res none => none
  | FetchOutcome.raised => none

lemma detailStep_apply (fetch : String → FetchOutcome)
    (m : String → Option StockDetail) (stock : Stock) (c : String) :
    detailStep fetch m stock c =
      if stock.code = c ∧ c ≠ "" ∧ fetchedValue fetch c ≠ none then
        fetchedValue fetch c
      else m c := by
  by_cases he : stock.code = ""
  · simp only [detailStep, if_pos he]
    rw [if_neg]
    rintro ⟨h1, h2, -⟩
    exact h2 (h1.symm.trans he)
  · by_cases hc : stock.code = c
    · subst hc
      simp only [detailStep, if_neg he]
      cases hf : fetch stock.code with
      | res o =>
          cases o with
          | some d =>
              simp only [fetchedValue, hf, dictInsert]
              simp [he]
          | none =>
              simp only [fetchedValue, hf]
              rw [if_neg]
              rintro ⟨-, -, h3⟩
              exact h3 rfl
      | raised =>
          simp only [fetchedValue, hf]
          rw [if_neg]
          rintro ⟨-, -, h3⟩
          exact h3 rfl
    · simp only [detailStep, if_neg he]
      have hrhs :
          (if stock.code = c ∧ c ≠ "" ∧ fetchedValue fetch c ≠ none then
            fetchedValue fetch c
          else m c) = m c := by
        rw [if_neg]
        rintro ⟨h1, -, -⟩
        exact hc h1
      rw [hrhs]
      cases hf : fetch stock.code with
      | res o =>
          cases o with
          | some d =>
              simp only [dictInsert]
              rw [if_neg (fun h => hc h.symm)]
          | none => rfl
      | raised => rfl

lemma foldl_detailStep_apply (fetch : String → FetchOutcome) (l : List Stock) :
    ∀ (m : String → Option StockDetail) (c : String),
      l.foldl (detailStep fetch) m c =
        if (∃ s ∈ l, s.code = c) ∧ c ≠ "" ∧ fetchedValue fetch c ≠ none then
          fetchedValue fetch c
        else m c := by
  induction l with
  | nil =>
      intro m c
      rw [List.foldl_nil, if_neg]
      rintro ⟨⟨s, hs, -⟩, -⟩
      exact absurd hs (List.not_mem_nil s)
  | cons s t ih =>
      intro m c
      rw [List.foldl_cons, ih, detailStep_apply]
      have hiff :
          ((∃ s2 ∈ s :: t, s2.code = c) ∧ c ≠ "" ∧ fetchedValue fetch c ≠ none)
            ↔ (((∃ s2 ∈ t, s2.code = c) ∧ c ≠ "" ∧ fetchedValue fetch c ≠ none)
              ∨ (s.code = c ∧ c ≠ "" ∧ fetchedValue fetch c ≠ none)) := by
        constructor
        · rintro ⟨⟨s2, hmem, hcode⟩, hR⟩
          rcases List.mem_cons.mp hmem with h | h
          · exact Or.inr ⟨h ▸ hcode, hR⟩
          · exact Or.inl ⟨⟨s2, h, hcode⟩, hR⟩
        · rintro (⟨⟨s2, hmem, hcode⟩, hR⟩ | ⟨hcode, hR⟩)
          · exact ⟨⟨s2, List.mem_cons_of_mem s hmem, hcode⟩, hR⟩
          · exact ⟨⟨s, List.mem_cons_self s t, hcode⟩, hR⟩
      by_cases hA : (∃ s2 ∈ t, s2.code = c) ∧ c ≠ "" ∧ fetchedValue fetch c ≠ none
      · rw [if_pos hA, if_pos (hiff.mpr (Or.inl hA))]
      · rw [if_neg hA]
        by_cases hB : s.code = c ∧ c ≠ "" ∧ fetchedValue fetch c ≠ none
        · rw [if_pos hB, if_pos (hiff.mpr (Or.inr hB))]
        · rw [if_neg hB, if_neg (fun hC => (hiff.mp hC).elim hA hB)]

/-- C9: every published detail map is well-formed -- a code has an entry
exactly when it is a non-empty code of some stock in the new snapshot list and
its detail fetch returned a truthy record; and any stored entry is exactly the
non-None record the fetch returned (entities whose fetch returned None or
raised are omitted rather than stored as null). -/
theorem c9_detail_map_wellformed (stocks : List Stock)
    (fetch : String → FetchOutcome) (c : String) :
    (buildDetailMap stocks fetch c ≠ none ↔
      c ≠ "" ∧ (∃ s ∈ stocks, s.code = c)
        ∧ ∃ d, fetch c = FetchOutcome.res (some d))
    ∧ ∀ d : StockDetail,
        buildDetailMap stocks fetch c = some d →
        fetch c = FetchOutcome.res (some d) := by
  have h := foldl_detailStep_apply fetch stocks (fun _ => none) c
  have hfe : (fetchedValue fetch c ≠ none) ↔
      ∃ d, fetch c = FetchOutcome.res (some d) := by
    cases hf : fetch c with
    | res o =>
        cases o with
        | none => simp [fetchedValue, hf]
        | some d => simp [fetchedValue, hf]
    | raised => simp [fetchedValue, hf]
  constructor
  · rw [buildDetailMap, h]
    by_cases hcond :
        (∃ s ∈ stocks, s.code = c) ∧ c ≠ "" ∧ fetchedValue fetch c ≠ none
    · rw [if_pos hcond]
      constructor
      · intro _
        exact ⟨hcond.2.1, hcond.1, hfe.mp hcond.2.2⟩
      · intro _
        exact hcond.2.2
    · rw [if_neg hcond]
      constructor
      · intro hn
        exact absurd rfl hn
      · rintro ⟨h1, h2, h3⟩
        exact absurd ⟨h2, h1, hfe.mpr h3⟩ hcond
  · intro d hd
    rw [buildDetailMap, h] at hd
    by_cases hcond :
        (∃ s ∈ stocks, s.code = c) ∧ c ≠ "" ∧ fetchedValue fetch c ≠ none
    · rw [if_pos hcond] at hd
      cases hf : fetch c with
      | res o =>
          cases o with
          | none =>
              simp only [fetchedValue, hf] at hd
              exact absurd hd (by simp)
          | some d2 =>
              simp only [fetchedValue, hf] at hd
              rw [← hd]
      | raised =>
          simp only [fetchedValue, hf] at hd
          exact absurd hd (by simp)
    · rw [if_neg hcond] at hd
      simp at hd

/-- C7: in a snapshot listing stocks A, B, C with distinct non-empty codes,
if only the detail fetch for B fails (raises or is swallowed into None),
the cycle still publishes, and the published detail map contains the records
for A and C but no entry for B -- the failing entity is omitted without
affecting the others or aborting the cycle. -/
theorem c7_partial_failure_isolation (a b c0 : Stock) (dA dC : StockDetail)
    (fetch : String → FetchOutcome) (src : String)
    (hA : fetch a.code = FetchOutcome.res (some dA))
    (hB : fetch b.code = FetchOutcome.raised)
    (hC : fetch c0.code = FetchOutcome.res (some dC))
    (hAne : a.code ≠ "") (hCne : c0.code ≠ "")
    (_hAB : a.code ≠ b.code) (_hCB : c0.code ≠ b.code) :
    buildDetailMap [a, b, c0] fetch a.code = some dA
    ∧ buildDetailMap [a, b, c0] fetch c0.code = some dC
    ∧ buildDetailMap [a, b, c0] fetch b.code = none
    ∧ (∀ (st : WorkerState) (now : Nat),
        (cacheCycle st
          (CycleOutcome.success { stocks := [a, b, c0], source := src } fetch now)
          ).state.cache.status = Status.ready
        ∧ (cacheCycle st
            (CycleOutcome.success { stocks := [a, b, c0], source := src } fetch now)
            ).state.cache.snapshot
              = some { stocks := [a, b, c0], source := src }
        ∧ (cacheCycle st
            (CycleOutcome.success { stocks := [a, b, c0], source := src } fetch now)
            ).state.cache.detail
              = buildDetailMap [a, b, c0] fetch) := by
  have hmap := foldl_detailStep_apply fetch [a, b, c0]
  refine ⟨?_, ?_, ?_, ?_⟩
  · rw [buildDetailMap, hmap (fun _ => none) a.code, if_pos, fetchedValue, hA]
    exact ⟨⟨a, by simp, rfl⟩, hAne, by rw [fetchedValue, hA]; simp⟩
  · rw [buildDetailMap, hmap (fun _ => none) c0.code, if_pos, fetchedValue, hC]
    exact ⟨⟨c0, by simp, rfl⟩, hCne, by rw [fetchedValue, hC]; simp⟩
  · rw [buildDetailMap, hmap (fun _ => none) b.code, if_neg]
    rintro ⟨-, -, h3⟩
    rw [fetchedValue, hB] at h3
    exact h3 rfl
  · intro st now
    exact ⟨rfl, rfl, rfl⟩

/-- Concrete stocks and fetcher for the C7 witness. -/
def stockA7 : Stock := { code := "005930", name := "SamsungElectronics" }

def stockB7 : Stock := { code := "000660", name := "SKHynix" }

def stockC7 : Stock := { code := "035720", name := "Kakao" }

def detA7 : StockDetail := { code := "005930", name := "SamsungElectronics" }

def detC7 : StockDetail := { code := "035720", name := "Kakao" }

/-- A fetcher whose detail fetch raises exactly for stock 000660 and succeeds
for the two others. -/
def fetch7 : String → FetchOutcome :=
  fun c =>
    if c = "005930" then FetchOutcome.res (some detA7)
    else if c = "000660" then FetchOutcome.raised
    else if c = "035720" then FetchOutcome.res (some detC7)
    else FetchOutcome.res none

/-- Witness for C7: with the concrete stocks above and B's fetch raising,
the map keeps A and C, drops B, and the cycle publishes. -/
theorem c7_partial_failure_isolation_witness :
    buildDetailMap [stockA7, stockB7, stockC7] fetch7 stockA7.code = some detA7
    ∧ buildDetailMap [stockA7, stockB7, stockC7] fetch7 stockC7.code = some detC7
    ∧ buildDetailMap [stockA7, stockB7, stockC7] fetch7 stockB7.code = none
    ∧ (cacheCycle initWorker
        (CycleOutcome.success
          { stocks := [stockA7, stockB7, stockC7], source := "naver_finance" }
          fetch7 77)).state.cache.status = Status.ready := by
  have h := c7_partial_failure_isolation stockA7 stockB7 stockC7 detA7 detC7
    fetch7 "naver_finance" (by decide) (by decide) (by decide)
    (by decide) (by decide) (by decide) (by decide)
  exact ⟨h.1, h.2.1, h.2.2.1, (h.2.2.2 initWorker 77).1⟩

-- C1: atomicity of the (snapshot, detail) pair seen by a reader.

/-- One publish call of the refresh worker, as applied to the cache by the
atomic swap block (cache_worker.py lines 49-53). -/
structure PubCall where
  snap : Snapshot
  det : String → Option StockDetail
  time : Nat

/-- Apply a sequence of publish calls to a cache state (each one is the
lock-guarded swap block of cache_loop, run once per successful cycle). -/
def applyPublishes (c : Cache) : List PubCall → Cache
  | [] => c
  | p :: rest => applyPublishes (publish c p.snap p.det p.time) rest

/-- The last publish of a non-empty sequence p :: rest. -/
def lastPublish (p : PubCall) : List PubCall → PubCall
  | [] => p
  | q :: t => lastPublish q t

/-- What the stock_detail handler observes (main.py lines 132-146): it reads
the detail entry for the requested code under one CACHE_LOCK acquisition
(lines 133-134), releases the lock, and then reads the snapshot under a
second, separate CACHE_LOCK acquisition (lines 145-146).  Because the lock is
released in between, the two reads may see different cache states c1 and c2
(publishes of cache_loop can run in between). -/
def stockDetailObservation (c1 c2 : Cache) (code : String) :
    Option StockDetail × Option Snapshot :=
  (c1.detail code, c2.snapshot)

/-- Detail map published by the first refresh cycle of the counterexample. -/
def detMapA : String → Option StockDetail :=
  dictInsert (fun _ => none) "005930" detRecA

/-- Detail map published by the second refresh cycle of the counterexample
(the second snapshot has no stocks, so its detail map is empty). -/
def detMapB : String → Option StockDetail := fun _ => none

/-- Cache state after the first publish (snapshot snapA, detail detMapA). -/
def cacheAfterPubA : Cache := publish initCache snapA detMapA 10

/-- Cache state after a second publish (snapshot snapB, detail detMapB)
interleaved between the two critical sections of a stock_detail reader. -/
def cacheAfterPubB : Cache := publish cacheAfterPubA snapB detMapB 20

/-- C1 counterexample: a stock_detail reader whose first critical section runs
after the first publish and whose second critical section runs after a second
publish observes the detail record of cycle A paired with the snapshot of
cycle B -- a pair that matches neither publish call.  The claim that every
reader observes a (snapshot, details) pair from one publish is therefore
false for the stock_detail endpoint. -/
theorem c1_mixed_pair_counterexample :
    cacheAfterPubB = publish cacheAfterPubA snapB detMapB 20
    ∧ stockDetailObservation cacheAfterPubA cacheAfterPubB "005930"
        = (some detRecA, some snapB)
    ∧ stockDetailObservation cacheAfterPubA cacheAfterPubB "005930"
        ≠ (detMapA "005930", some snapA)
    ∧ stockDetailObservation cacheAfterPubA cacheAfterPubB "005930"
        ≠ (detMapB "005930", some snapB) := by
  refine ⟨rfl, by decide, by decide, by decide⟩

/-- C1 amended: the publish block itself is atomic -- snapshot and detail map
are replaced together -- so any reader whose detail read and snapshot read
happen inside one critical section (that is, against one and the same cache
state) observes exactly the pair installed by the latest publish.  The mixing
in the counterexample can only arise from stock_detail's two separate lock
acquisitions. -/
theorem c1_single_section_atomic :
    ∀ (rest : List PubCall) (p : PubCall) (c0 : Cache) (code : String),
      stockDetailObservation (applyPublishes c0 (p :: rest))
          (applyPublishes c0 (p :: rest)) code
        = ((lastPublish p rest).det code, some (lastPublish p rest).snap) := by
  intro rest
  induction rest with
  | nil => intro p c0 code; rfl
  | cons q t ih =>
      intro p c0 code
      exact ih q (publish c0 p.snap p.det p.time) code

-- C3: what gets published and what gets broadcast.

/-- Effect of one iteration of refresh_loop (main.py lines 282-299): the frame
built from the do_refresh outcome, and the list of frames handed to
hub.broadcast in that iteration. -/
structure RefreshEffect where
  payload : Payload
  broadcastMsgs : List Payload

/-- One iteration of refresh_loop (main.py lines 282-299).  do_refresh wraps
the fetched snapshot dict as x7btype, seq, ts, owner, datax7d (lines 269-275);
if do_refresh raises, the except branch builds a frame of the same
type "snapshot" whose data is the error object (lines 286-293).  Either way
the frame is stored as the latest payload and passed to hub.broadcast
(line 299) -- the broadcast is not conditional on success.  Note refresh_loop
never writes GLOBAL_CACHE; publishing to the cache happens only in
cache_loop. -/
def refreshIter (i ts : Nat) (outcome : Except String Snapshot) : RefreshEffect :=
  match outcome with
  | Except.ok d =>
      { payload :=
          { type := "snapshot", seq := i, ts := ts, owner := OWNER_NAME
          , data := PayloadData.snap d }
      , broadcastMsgs :=
          [{ type := "snapshot", seq := i, ts := ts, owner := OWNER_NAME
           , data := PayloadData.snap d }] }
  | Except.error e =>
      { payload :=
          { type := "snapshot", seq := i, ts := ts, owner := OWNER_NAME
          , data := PayloadData.errorData e }
      , broadcastMsgs :=
          [{ type := "snapshot", seq := i, ts := ts, owner := OWNER_NAME
           , data := PayloadData.errorData e }] }

/-- C3 counterexample: a failed refresh iteration still hands a frame of type
"snapshot" (carrying an error object, not a snapshot) to the hub, so frames
are not sent only on successful refreshes; and a successful cache_loop cycle
publishes into the cache without handing any frame to the hub, so a publish
is not followed by a hub notification. -/
theorem c3_broadcast_counterexample :
    (refreshIter 1 100 (Except.error "fetch failed")).broadcastMsgs
      = [{ type := "snapshot", seq := 1, ts := 100, owner := OWNER_NAME
         , data := PayloadData.errorData "fetch failed" }]
    ∧ (refreshIter 1 100 (Except.error "fetch failed")).payload.type = "snapshot"
    ∧ (cacheCycle initWorker
        (CycleOutcome.success snapA (fun _ => FetchOutcome.res none) 5)).sent
          = []
    ∧ (cacheCycle initWorker
        (CycleOutcome.success snapA (fun _ => FetchOutcome.res none) 5)
        ).state.cache.snapshot = some snapA := by
  exact ⟨rfl, rfl, rfl, rfl⟩

/-- C3 amended: the two pipelines are separate.  cache_loop publishes the
snapshot and detail map into SnapshotCache on every successful cycle but
notifies no subscriber; refresh_loop hands exactly one frame of type
"snapshot" to the hub on every iteration -- with the serialized snapshot as
data when its own fetch succeeded and with an error object as data when it
failed -- and never publishes into the cache. -/
theorem c3_publish_broadcast_separated :
    ∀ (i ts : Nat) (d : Snapshot) (e : String) (st : WorkerState)
      (snap : Snapshot) (fetch : String → FetchOutcome) (now : Nat),
      refreshIter i ts (Except.ok d)
        = { payload :=
              { type := "snapshot", seq := i, ts := ts, owner := OWNER_NAME
              , data := PayloadData.snap d }
          , broadcastMsgs :=
              [{ type := "snapshot", seq := i, ts := ts, owner := OWNER_NAME
               , data := PayloadData.snap d }] }
      ∧ refreshIter i ts (Except.error e)
          = { payload :=
                { type := "snapshot", seq := i, ts := ts, owner := OWNER_NAME
                , data := PayloadData.errorData e }
            , broadcastMsgs :=
                [{ type := "snapshot", seq := i, ts := ts, owner := OWNER_NAME
                 , data := PayloadData.errorData e }] }
      ∧ (cacheCycle st (CycleOutcome.success snap fetch now)).state.cache
          = publish st.cache snap (buildDetailMap snap.stocks fetch) now
      ∧ (cacheCycle st (CycleOutcome.success snap fetch now)).sent = [] := by
  intro i ts d e st snap fetch now
  exact ⟨rfl, rfl, rfl, rfl⟩

-- C2: concurrency of the two fetch loops and trigger coalescing.

/-- Joint state of the two startup tasks of main.py and the trigger event.
Both startup handlers are registered (main.py lines 39-44 start cache_loop,
lines 258-307 start refresh_loop): cacheFetching says cache_loop is inside
its awaited build_snapshot (cache_worker.py line 28), refreshFetching says
refresh_loop is awaiting its do_refresh fetch task (main.py lines 277-278,
285), refreshEvent is the _refresh_now asyncio.Event (main.py line 66). -/
structure Sys where
  cacheFetching : Bool
  refreshFetching : Bool
  refreshEvent : Bool
deriving DecidableEq, Repr

/-- Atomic actions of the system between suspension points:
cacheStart/cacheEnd delimit cache_loop's aggregate fetch (the loop is
sequential, so a new fetch starts only when the previous one ended);
refreshStart/refreshEnd delimit refresh_loop's aggregate fetch (refresh_loop
awaits do_refresh before looping, and do_refresh additionally returns the
in-flight task if one is running, main.py lines 264-265, so a new fetch
starts only when none is in flight); trigger is the POST /refresh handler
setting _refresh_now (main.py line 115); refreshClear is refresh_loop
clearing the event after its cycle completed (main.py line 302). -/
inductive Act
  | cacheStart
  | cacheEnd
  | refreshStart
  | refreshEnd
  | trigger
  | refreshClear
deriving DecidableEq, Repr

/-- System state at startup: no fetch in flight, event unset. -/
def initSys : Sys :=
  { cacheFetching := false, refreshFetching := false, refreshEvent := false }

/-- One atomic step; none when the action is not enabled in this state. -/
def sysStep (s : Sys) : Act → Option Sys
  | Act.cacheStart =>
      if s.cacheFetching then none else some { s with cacheFetching := true }
  | Act.cacheEnd =>
      if s.cacheFetching then some { s with cacheFetching := false } else none
  | Act.refreshStart =>
      if s.refreshFetching then none
      else some { s with refreshFetching := true }
  | Act.refreshEnd =>
      if s.refreshFetching then some { s with refreshFetching := false }
      else none
  | Act.trigger => some { s with refreshEvent := true }
  | Act.refreshClear =>
      if s.refreshFetching then none else some { s with refreshEvent := false }

/-- Run a list of actions from a state; none if some action is not enabled. -/
def runActs (s : Sys) : List Act → Option Sys
  | [] => some s
  | a :: rest =>
      match sysStep s a with
      | none => none
      | some s2 => runActs s2 rest

/-- Number of aggregate fetches in flight. -/
def inFlightFetches (s : Sys) : Nat :=
  (if s.cacheFetching then 1 else 0) + (if s.refreshFetching then 1 else 0)

/-- C2 counterexample: from startup, cache_loop can begin its aggregate fetch
and refresh_loop can begin its own while the first is still in flight -- the
two loops fetch independently -- so a state with two aggregate fetches in
flight at the same time is reachable, contradicting the claim that at most
one aggregate fetch is ever in flight. -/
theorem c2_two_fetches_counterexample :
    runActs initSys [Act.cacheStart, Act.refreshStart]
      = some { cacheFetching := true, refreshFetching := true
             , refreshEvent := false }
    ∧ inFlightFetches
        { cacheFetching := true, refreshFetching := true
        , refreshEvent := false } = 2 := by
  exact ⟨rfl, rfl⟩

/-- C2 amended: refresh triggers never start an aggregate fetch -- any number
of trigger arrivals only sets the _refresh_now event and leaves the fetch
state of both loops unchanged -- and each loop is single-flight on its own:
a new refresh_loop fetch cannot start while one is in flight, and likewise
for cache_loop.  (Two fetches can still overlap across the two loops, as the
counterexample shows.) -/
theorem c2_triggers_coalesced :
    (∀ (s : Sys) (k : Nat),
      ∃ s2 : Sys,
        runActs s (List.replicate k Act.trigger) = some s2
        ∧ s2.cacheFetching = s.cacheFetching
        ∧ s2.refreshFetching = s.refreshFetching)
    ∧ (∀ s : Sys, s.refreshFetching = true → sysStep s Act.refreshStart = none)
    ∧ (∀ s : Sys, s.cacheFetching = true → sysStep s Act.cacheStart = none) := by
  refine ⟨?_, ?_, ?_⟩
  · intro s k
    induction k generalizing s with
    | zero => exact ⟨s, rfl, rfl, rfl⟩
    | succ k ih =>
        rcases ih { s with refreshEvent := true } with ⟨s2, hrun, hc, hr⟩
        exact ⟨s2, hrun, hc, hr⟩
  · intro s h
    simp [sysStep, h]
  · intro s h
    simp [sysStep, h]

/-- Witness for C2 amended: three triggers arriving while refresh_loop has a
fetch in flight change no fetch state, and no second refresh fetch can start
in that state. -/
theorem c2_triggers_coalesced_witness :
    (∃ s2 : Sys,
      runActs { cacheFetching := false, refreshFetching := true
              , refreshEvent := false }
          (List.replicate 3 Act.trigger) = some s2
      ∧ s2.cacheFetching
          = ({ cacheFetching := false, refreshFetching := true
             , refreshEvent := false } : Sys).cacheFetching
      ∧ s2.refreshFetching
          = ({ cacheFetching := false, refreshFetching := true
             , refreshEvent := false } : Sys).refreshFetching)
    ∧ sysStep { cacheFetching := false, refreshFetching := true
              , refreshEvent := false } Act.refreshStart = none := by
  exact ⟨c2_triggers_coalesced.1 _ 3, c2_triggers_coalesced.2.1 _ rfl⟩

-- C8: websocket hub fan-out.

/-- A websocket connection handle, identified by a number. -/
abbrev Client := Nat

/-- Serialization of the frame data; a model of json.dumps of the data field. -/
def serializeData : PayloadData → String
  | PayloadData.snap s => "snapshot:" ++ s.source ++ ":" ++ toString s.stocks.length
  | PayloadData.errorData e => "error:" ++ e

/-- Model of json.dumps(payload, ensure_ascii=False) (main.py line 221):
one string computed once per broadcast call; the exact rendering is
irrelevant to the claims, which only use that every send of a broadcast
carries this one string. -/
def serializePayload (p : Payload) : String :=
  p.type ++ "|" ++ toString p.seq ++ "|" ++ toString p.ts ++ "|" ++ p.owner
    ++ "|" ++ serializeData p.data

/-- Hub.remove / set.discard (main.py lines 216-218): drop the connection from
the membership set; idempotent. -/
def hubDiscard (clients : List Client) (ws : Client) : List Client :=
  clients.filter (fun c => c ≠ ws)

/-- Result of one Hub.broadcast call: the membership after the call and the
(connection, text) sends that succeeded. -/
structure BroadcastResult where
  clients : List Client
  delivered : List (Client × String)

/-- The send loop body of Hub.broadcast (main.py lines 225-229): a successful
send_text is recorded as delivered; a failing send removes the connection
from the membership. -/
def broadcastStep (sendOk : Client → Bool) (msg : String)
    (acc : BroadcastResult) (ws : Client) : BroadcastResult :=
  if sendOk ws then { acc with delivered := acc.delivered ++ [(ws, msg)] }
  else { acc with clients := hubDiscard acc.clients ws }

/-- Hub.broadcast (main.py lines 220-229): serialize the payload once, take a
snapshot of the membership under the lock (line 223), then send to each
member of that snapshot outside the lock; each failing send removes that
connection.  sendOk gives each connection's send behaviour for this event. -/
def hubBroadcast (clients : List Client) (sendOk : Client → Bool)
    (p : Payload) : BroadcastResult :=
  clients.foldl (broadcastStep sendOk (serializePayload p))
    { clients := clients, delivered := [] }

lemma broadcastStep_clients (sendOk : Client → Bool) (msg : String)
    (acc : BroadcastResult) (w : Client) :
    (broadcastStep sendOk msg acc w).clients
      = if sendOk w then acc.clients else hubDiscard acc.clients w := by
  rw [broadcastStep]
  split <;> rfl

lemma broadcastStep_delivered (sendOk : Client → Bool) (msg : String)
    (acc : BroadcastResult) (w : Client) :
    (broadcastStep sendOk msg acc w).delivered
      = if sendOk w then acc.delivered ++ [(w, msg)] else acc.delivered := by
  rw [broadcastStep]
  split <;> rfl

lemma broadcastFold_delivered_mono (sendOk : Client → Bool) (msg : String)
    (l : List Client) :
    ∀ (acc : BroadcastResult) (pr : Client × String),
      pr ∈ acc.delivered →
      pr ∈ (l.foldl (broadcastStep sendOk msg) acc).delivered := by
  induction l with
  | nil => intro acc pr h; exact h
  | cons w t ih =>
      intro acc pr h
      rw [List.foldl_cons]
      apply ih
      rw [broadcastStep_delivered]
      by_cases hw : sendOk w
      · rw [if_pos hw]
        exact List.mem_append.mpr (Or.inl h)
      · rw [if_neg hw]
        exact h

lemma broadcastFold_delivers (sendOk : Client → Bool) (msg : String)
    (l : List Client) :
    ∀ (acc : BroadcastResult) (ws : Client),
      ws ∈ l → sendOk ws = true →
      (ws, msg) ∈ (l.foldl (broadcastStep sendOk msg) acc).delivered := by
  induction l with
  | nil => intro acc ws h; exact absurd h (List.not_mem_nil ws)
  | cons w t ih =>
      intro acc ws hmem hok
      rcases List.mem_cons.mp hmem with h | h
      · subst h
        rw [List.foldl_cons]
        apply broadcastFold_delivered_mono
        rw [broadcastStep_delivered, if_pos hok]
        exact List.mem_append.mpr (Or.inr (List.mem_singleton.mpr rfl))
      · exact ih _ ws h hok

lemma broadcastFold_keeps_good (sendOk : Client → Bool) (msg : String)
    (l : List Client) :
    ∀ (acc : BroadcastResult) (ws : Client),
      sendOk ws = true → ws ∈ acc.clients →
      ws ∈ (l.foldl (broadcastStep sendOk msg) acc).clients := by
  induction l with
  | nil => intro acc ws _ h; exact h
  | cons w t ih =>
      intro acc ws hok hmem
      rw [List.foldl_cons]
      apply ih _ ws hok
      rw [broadcastStep_clients]
      by_cases hw : sendOk w
      · rw [if_pos hw]
        exact hmem
      · rw [if_neg hw]
        have hne : ws ≠ w := fun heq => hw (heq ▸ hok)
        rw [hubDiscard]
        refine List.mem_filter.mpr ⟨hmem, ?_⟩
        simp [hne]

lemma broadcastFold_no_add (sendOk : Client → Bool) (msg : String)
    (l : List Client) :
    ∀ (acc : BroadcastResult) (ws : Client),
      ws ∉ acc.clients →
      ws ∉ (l.foldl (broadcastStep sendOk msg) acc).clients := by
  induction l with
  | nil => intro acc ws h; exact h
  | cons w t ih =>
      intro acc ws h
      rw [List.foldl_cons]
      apply ih
      rw [broadcastStep_clients]
      by_cases hw : sendOk w
      · rw [if_pos hw]
        exact h
      · rw [if_neg hw, hubDiscard]
        intro hmem2
        exact h (List.mem_of_mem_filter hmem2)

lemma broadcastFold_removes_bad (sendOk : Client → Bool) (msg : String)
    (l : List Client) :
    ∀ (acc : BroadcastResult) (ws : Client),
      sendOk ws = false → ws ∈ l →
      ws ∉ (l.foldl (broadcastStep sendOk msg) acc).clients := by
  induction l with
  | nil => intro acc ws _ h; exact absurd h (List.not_mem_nil ws)
  | cons w t ih =>
      intro acc ws hbad hmem
      rcases List.mem_cons.mp hmem with h | h
      · subst h
        rw [List.foldl_cons]
        apply broadcastFold_no_add
        rw [broadcastStep_clients, if_neg (by simp [hbad]), hubDiscard]
        intro hmem2
        have h2 := (List.mem_filter.mp hmem2).2
        simp at h2
      · exact ih _ ws hbad h

lemma broadcastFold_msgs (sendOk : Client → Bool) (msg : String)
    (l : List Client) :
    ∀ (acc : BroadcastResult),
      (∀ pr ∈ acc.delivered, pr.2 = msg) →
      ∀ pr ∈ (l.foldl (broadcastStep sendOk msg) acc).delivered, pr.2 = msg := by
  induction l with
  | nil => intro acc h; exact h
  | cons w t ih =>
      intro acc h
      rw [List.foldl_cons]
      apply ih
      intro pr hpr
      rw [broadcastStep_delivered] at hpr
      by_cases hw : sendOk w
      · rw [if_pos hw] at hpr
        rcases List.mem_append.mp hpr with h1 | h1
        · exact h pr h1
        · rw [List.mem_singleton] at h1
          rw [h1]
      · rw [if_neg hw] at hpr
        exact h pr hpr

/-- C8: if the send to X fails during a broadcast, every other member Y of the
membership snapshot taken at the start of that broadcast whose send works
still receives the event; X is removed from the membership; every delivered
send of the broadcast carries the one serialization of the event computed at
its start; and a subsequent broadcast still reaches Y. -/
theorem c8_fanout_isolation (cls : List Client) (sendOk1 sendOk2 : Client → Bool)
    (p1 p2 : Payload) (x y : Client)
    (hx : x ∈ cls) (hy : y ∈ cls)
    (hxfail : sendOk1 x = false) (hyok : sendOk1 y = true)
    (hyok2 : sendOk2 y = true) :
    (y, serializePayload p1) ∈ (hubBroadcast cls sendOk1 p1).delivered
    ∧ x ∉ (hubBroadcast cls sendOk1 p1).clients
    ∧ (∀ pr ∈ (hubBroadcast cls sendOk1 p1).delivered,
        pr.2 = serializePayload p1)
    ∧ (y, serializePayload p2) ∈
        (hubBroadcast (hubBroadcast cls sendOk1 p1).clients sendOk2 p2).delivered := by
  refine ⟨?_, ?_, ?_, ?_⟩
  · exact broadcastFold_delivers sendOk1 (serializePayload p1) cls _ y hy hyok
  · exact broadcastFold_removes_bad sendOk1 (serializePayload p1) cls _ x hxfail hx
  · exact broadcastFold_msgs sendOk1 (serializePayload p1) cls _
      (by intro pr h; exact absurd h (List.not_mem_nil pr))
  · have hy2 : y ∈ (hubBroadcast cls sendOk1 p1).clients :=
      broadcastFold_keeps_good sendOk1 (serializePayload p1) cls _ y hyok hy
    exact broadcastFold_delivers sendOk2 (serializePayload p2) _ _ y hy2 hyok2

/-- Concrete payloads for the C8 witness. -/
def payloadN : Payload :=
  { type := "snapshot", seq := 1, ts := 100, owner := OWNER_NAME
  , data := PayloadData.snap snapA }

/-- A second concrete payload (the next event). -/
def payloadN1 : Payload :=
  { type := "snapshot", seq := 2, ts := 160, owner := OWNER_NAME
  , data := PayloadData.snap snapB }

/-- Witness for C8: with subscribers 1, 2, 3 where subscriber 2's send fails
during event N, subscriber 1 still receives event N, subscriber 2 is removed,
and subscriber 1 receives event N+1 as well. -/
theorem c8_fanout_isolation_witness :
    (1, serializePayload payloadN)
        ∈ (hubBroadcast [1, 2, 3] (fun c => decide (c ≠ 2)) payloadN).delivered
    ∧ 2 ∉ (hubBroadcast [1, 2, 3] (fun c => decide (c ≠ 2)) payloadN).clients
    ∧ (1, serializePayload payloadN1)
        ∈ (hubBroadcast
            (hubBroadcast [1, 2, 3] (fun c => decide (c ≠ 2)) payloadN).clients
            (fun _ => true) payloadN1).delivered := by
  have h := c8_fanout_isolation [1, 2, 3] (fun c => decide (c ≠ 2))
    (fun _ => true) payloadN payloadN1 2 1
    (by decide) (by decide) (by decide) (by decide) (by decide)
  exact ⟨h.1, h.2.1, h.2.2.2⟩

-- C10: /stock/code validation.

/-- Witness for C9 at concrete inputs: with the one-stock list [stockA7] and
fetcher fetch7, code 005930 has an entry in the built map, and the entry
stored for it is exactly the record fetch7 returned. -/
theorem c9_detail_map_wellformed_witness :
    buildDetailMap [stockA7] fetch7 "005930" ≠ none
    ∧ fetch7 "005930" = FetchOutcome.res (some detA7) := by
  refine ⟨?_, ?_⟩
  · exact (c9_detail_map_wellformed [stockA7] fetch7 "005930").1.mpr
      ⟨by decide, ⟨stockA7, List.mem_singleton.mpr rfl, rfl⟩, ⟨detA7, rfl⟩⟩
  · exact (c9_detail_map_wellformed [stockA7] fetch7 "005930").2 detA7 (by decide)
